import Mathlib

/-!
Shallow embedding of the mp3-and-mp4-downloader repository
(src/app.py: Flask web front end; src/converter.py: CLI front end).

Paths are modelled as POSIX path strings relative to the application base
directory; `pathlib.Path` operations used by the source (`stem`, `/` join,
`str`) are modelled on such strings.  Python string primitives
(`str.split`, `str.strip`, `str.lower`, f-string concatenation) are
reimplemented on `List Char` by structural recursion so that every
definition evaluates inside the kernel.  External processes are modelled
by oracles supplied in the environment: each planned invocation is paired
with the exit status the external tool returns, and the filesystem
contents the downloader produces are given as a list of file names.
Filesystem mutations and process spawns performed by the web handler are
recorded in an event trace.
-/

namespace MediaConv

/-- `str.split(sep)` for a one-character separator, on character lists:
`"".split(",") == [""]`, separators delimit possibly empty fields. -/
def splitOnChar (sep : Char) : List Char → List (List Char)
  | [] => [[]]
  | c :: cs =>
    let r := splitOnChar sep cs
    if c = sep then [] :: r
    else
      match r with
      | [] => [[c]]
      | p :: ps => (c :: p) :: ps

/-- `str.split(sep)` on strings, one-character separator. -/
def strSplitOn (sep : Char) (s : String) : List String :=
  (splitOnChar sep s.data).map String.mk

/-- The ASCII whitespace characters stripped by Python's `str.strip()`. -/
def isSpaceChar (c : Char) : Bool :=
  c = ' ' || c = '\t' || c = '\n' || c = '\r' || c = '\x0b' || c = '\x0c'

/-- Python `str.strip()`: remove leading and trailing whitespace. -/
def strip (s : String) : String :=
  String.mk (((s.data.dropWhile isSpaceChar).reverse.dropWhile isSpaceChar).reverse)

/-- Python `str.lower()`, restricted to ASCII letters (the only characters
compared against the extension allowlist). -/
def lowerStr (s : String) : String :=
  String.mk (s.data.map (fun c =>
    if 'A' ≤ c ∧ c ≤ 'Z' then Char.ofNat (c.toNat + 32) else c))

/-- Python `sep in s` for a one-character `sep`. -/
def containsChar (s : String) (c : Char) : Bool :=
  s.data.any (fun d => d = c)

/-- Join character lists with a one-character separator (`sep.join`). -/
def joinSep (sep : Char) : List (List Char) → List Char
  | [] => []
  | [p] => p
  | p :: ps => p ++ sep :: joinSep sep ps

/-- `sep.join(parts)` on strings, one-character separator. -/
def strIntercalate (sep : Char) (parts : List String) : String :=
  String.mk (joinSep sep (parts.map String.data))

/-- Does the character list `pat` start the character list `s`? -/
def startsWithChars : List Char → List Char → Bool
  | [], _ => true
  | _ :: _, [] => false
  | p :: ps, c :: cs => p = c && startsWithChars ps cs

/-- `s.startswith(pat)` on strings. -/
def strStartsWith (s pat : String) : Bool :=
  startsWithChars pat.data s.data

/-- Code-point lexicographic `≤` on character lists (Python `str` order). -/
def lexLeChars : List Char → List Char → Bool
  | [], _ => true
  | _ :: _, [] => false
  | a :: as, b :: bs => if a = b then lexLeChars as bs else decide (a < b)

/-- Insert a string into a lexicographically sorted list. -/
def insertSorted (x : String) : List String → List String
  | [] => [x]
  | y :: ys => if lexLeChars x.data y.data then x :: y :: ys else y :: insertSorted x ys

/-- Python `sorted` on strings (insertion sort, lexicographic order). -/
def sortStrings : List String → List String
  | [] => []
  | x :: xs => insertSorted x (sortStrings xs)

/-- `ALLOWED_EXTENSIONS` from src/app.py line 17. -/
def ALLOWED_EXTENSIONS : List String :=
  ["mp3", "mp4", "mov", "mkv", "wav", "aac", "flac"]

/-- `DEFAULT_MP3_BITRATES` from src/app.py line 19. -/
def DEFAULT_MP3_BITRATES : List String := ["128k", "192k", "320k"]

/-- `DEFAULT_MP4_RESOLUTIONS` from src/app.py line 20. -/
def DEFAULT_MP4_RESOLUTIONS : List String := ["1920:1080", "1280:720", "854:480"]

/-- `UPLOAD_DIR` (src/app.py line 14), relative to the base directory. -/
def UPLOAD_DIR : String := "uploads"

/-- `DOWNLOAD_DIR` (src/app.py line 15), relative to the base directory. -/
def DOWNLOAD_DIR : String := "downloads"

/-- `OUTPUT_DIR` (src/app.py line 16), relative to the base directory. -/
def OUTPUT_DIR : String := "output"

/-- POSIX path join, `dir / name` on `pathlib.Path`. -/
def pathJoin (dir name : String) : String := dir ++ "/" ++ name

/-- `Path(p).name`: the final non-empty path component. -/
def pathName (p : String) : String :=
  ((strSplitOn '/' p).filter (fun c => c ≠ "")).getLastD ""

/-- `Path(p).stem`: the final component without its suffix.  Following
`pathlib`, the suffix is the part from the last dot on, and is empty when
the last dot is the first character of the name or its last character. -/
def pathStem (p : String) : String :=
  let n := pathName p
  let parts := strSplitOn '.' n
  if parts.length ≤ 1 then n
  else if parts.getLastD "" = "" then n
  else if parts.length = 2 ∧ parts.headD "" = "" then n
  else strIntercalate '.' parts.dropLast

/-- `parse_csv` from src/app.py lines 40-41 and src/converter.py lines 19-20:
split on commas, strip whitespace, drop empty items. -/
def parse_csv (value : String) : List String :=
  ((strSplitOn ',' value).map strip).filter (fun item => item ≠ "")

/-- `allowed_file` from src/app.py lines 36-37: the filename contains a dot
and the part after the last dot (`rsplit(".", 1)[1]`), lowercased, is in
the allowlist. -/
def allowed_file (filename : String) : Bool :=
  containsChar filename '.' &&
    ALLOWED_EXTENSIONS.contains (lowerStr ((strSplitOn '.' filename).getLastD ""))

/-- `build_mp3_commands` from src/app.py lines 44-62 (identical in
src/converter.py lines 23-43): one ffmpeg invocation per bitrate, output
`{stem}_{bitrate}.mp3` in the output directory. -/
def build_mp3_commands (input_path output_dir : String) (bitrates : List String) :
    List (List String) :=
  bitrates.map (fun bitrate =>
    ["ffmpeg", "-y", "-i", input_path, "-vn", "-b:a", bitrate,
      pathJoin output_dir (pathStem input_path ++ "_" ++ bitrate ++ ".mp3")])

/-- `build_mp4_commands` from src/app.py lines 65-90 (identical in
src/converter.py lines 46-71): one ffmpeg invocation per resolution, with a
scale filter and the job-level video/audio bitrates, output
`{stem}_{resolution}.mp4`. -/
def build_mp4_commands (input_path output_dir : String) (resolutions : List String)
    (video_bitrate audio_bitrate : String) : List (List String) :=
  resolutions.map (fun resolution =>
    ["ffmpeg", "-y", "-i", input_path, "-vf", "scale=" ++ resolution,
      "-b:v", video_bitrate, "-b:a", audio_bitrate,
      pathJoin output_dir (pathStem input_path ++ "_" ++ resolution ++ ".mp4")])

/-- Result of `run_commands`: the invocations actually started, in order,
and the first failing invocation with its exit status, if any (the
`subprocess.CalledProcessError` raised by `check=True`). -/
structure RunResult where
  executed : List (List String)
  failure : Option (List String × Int)
  deriving DecidableEq

/-- `run_commands` from src/app.py lines 93-95 (identical in
src/converter.py lines 74-76): run each invocation in order with
`check=True`; the first non-zero exit status raises, aborting the batch.
Each invocation is paired with the exit status its external process
returns. -/
def run_commands : List (List String × Int) → RunResult
  | [] => ⟨[], none⟩
  | (c, code) :: rest =>
    if code = 0 then
      let r := run_commands rest
      ⟨c :: r.executed, r.failure⟩
    else ⟨[c], some (c, code)⟩

/-- The MP3 planning path of `main` in src/converter.py lines 93-99 and
119-126: `--bitrates` has argparse default `["128k", "192k", "320k"]`,
applied only when the flag is absent; a supplied value goes through
`parse_csv`. -/
def main_mp3_plan (input output_dir : String) (bitratesArg : Option String) :
    List (List String) :=
  build_mp3_commands input output_dir
    (match bitratesArg with
     | none => ["128k", "192k", "320k"]
     | some s => parse_csv s)

/-- The MP4 planning path of `main` in src/converter.py lines 101-117 and
119-134: `--resolutions` has argparse default
`["1920:1080", "1280:720", "854:480"]`, applied only when the flag is
absent; `--video-bitrate` and `--audio-bitrate` default to `"2000k"` and
`"128k"`. -/
def main_mp4_plan (input output_dir : String) (resolutionsArg : Option String)
    (video_bitrateArg audio_bitrateArg : Option String) : List (List String) :=
  build_mp4_commands input output_dir
    (match resolutionsArg with
     | none => ["1920:1080", "1280:720", "854:480"]
     | some s => parse_csv s)
    (video_bitrateArg.getD "2000k") (audio_bitrateArg.getD "128k")

/-- Filesystem and process events performed by the web handler, in order. -/
inductive Ev
  | checkFfmpeg
  | checkYtdlp
  | mkdir (dir : String)
  | runDownloader (url : String)
  | saveUpload (path : String)
  | runCmd (cmd : List String)
  deriving DecidableEq

/-- The exceptions that can escape `download_from_youtube`
(src/app.py lines 98-117): the RuntimeError of `ensure_ytdlp`, the
CalledProcessError of a failing yt-dlp run, and the RuntimeError raised
when no `source.*` file was produced. -/
inductive AcqErr
  | toolUnavailable (tool : String)
  | processFailed (exitCode : Int)
  | noFileProduced
  deriving DecidableEq

/-- Outcome of the `/convert` handler (src/app.py lines 129-190).  Every
error outcome is a flashed message followed by a redirect, except
`toolUnavailable "ffmpeg"`, which is an uncaught RuntimeError; `success`
renders the results page for the job (the listing of the job output
directory is filesystem state outside this model). -/
inductive ConvertResult
  | toolUnavailable (tool : String)
  | missingInput
  | unsupportedType
  | acquisitionError (e : AcqErr)
  | conversionFailed
  | success (file_id : String)
  deriving DecidableEq

/-- One `/convert` request together with the behavior of the external
world: the form fields and uploaded-file name as Flask presents them, the
availability of the two external binaries, the generated job identifier,
the exit status of the downloader and the files it leaves in the job
download directory, and the exit status of each transcode invocation (by
position in the batch). -/
structure Env where
  ffmpegAvailable : Bool
  ytdlpAvailable : Bool
  mediaFile : Option String
  youtube_url_field : String
  modeField : Option String
  bitratesField : Option String
  resolutionsField : Option String
  video_bitrateField : Option String
  audio_bitrateField : Option String
  file_id : String
  downloaderExit : Int
  downloadDirContents : List String
  cmdExit : Nat → Int

/-- `sorted(target_dir.glob("source.*"))` from src/app.py line 114: the
file names in the directory that match the fixed base name, sorted. -/
def globSource (dirContents : List String) : List String :=
  sortStrings (dirContents.filter (fun f => strStartsWith f "source."))

/-- `download_from_youtube` from src/app.py lines 98-117: check yt-dlp,
create the target directory, run yt-dlp against the URL, and locate the
produced file as the first of the sorted `source.*` glob matches; raise
when the process exits non-zero or no match exists.  Returns the event
trace and the result. -/
def download_from_youtube (ytdlpAvailable : Bool) (downloaderExit : Int)
    (dirContents : List String) (url target_dir : String) :
    List Ev × Except AcqErr String :=
  if ytdlpAvailable then
    let tr := [Ev.checkYtdlp, Ev.mkdir target_dir, Ev.runDownloader url]
    if downloaderExit = 0 then
      match globSource dirContents with
      | [] => (tr, Except.error AcqErr.noFileProduced)
      | f :: _ => (tr, Except.ok (pathJoin target_dir f))
    else (tr, Except.error (AcqErr.processFailed downloaderExit))
  else ([Ev.checkYtdlp], Except.error (AcqErr.toolUnavailable "yt-dlp"))

/-- The command-planning block of `/convert` (src/app.py lines 164-178):
mp3 mode plans MP3 variants from the `bitrates` field, falling back to
`DEFAULT_MP3_BITRATES` when the parsed list is empty; any other mode plans
MP4 variants from the `resolutions` field likewise, with the job-level
video/audio bitrates. -/
def planConvert (mode bitrates_field resolutions_field video_bitrate audio_bitrate
    input_path output_dir : String) : List (List String) :=
  if mode = "mp3" then
    let parsed := parse_csv bitrates_field
    let bitrates := if parsed = [] then DEFAULT_MP3_BITRATES else parsed
    build_mp3_commands input_path output_dir bitrates
  else
    let parsed := parse_csv resolutions_field
    let resolutions := if parsed = [] then DEFAULT_MP4_RESOLUTIONS else parsed
    build_mp4_commands input_path output_dir resolutions video_bitrate audio_bitrate

/-- Pair each planned invocation with the exit status of its position. -/
def withExits (cmds : List (List String)) (exitAt : Nat → Int) :
    List (List String × Int) :=
  cmds.enum.map (fun p => (p.2, exitAt p.1))

/-- The tail of `/convert` after acquisition (src/app.py lines 161-190):
create the job output directory, plan the batch for the request's mode,
and run it; a CalledProcessError from the batch flashes a conversion
failure, otherwise the results page is rendered. -/
def afterAcquire (env : Env) (tr : List Ev) (input_path : String) :
    List Ev × ConvertResult :=
  let output_dir := pathJoin OUTPUT_DIR env.file_id
  let commands := planConvert (env.modeField.getD "mp3") (env.bitratesField.getD "")
    (env.resolutionsField.getD "") (env.video_bitrateField.getD "2000k")
    (env.audio_bitrateField.getD "128k") input_path output_dir
  let r := run_commands (withExits commands env.cmdExit)
  match r.failure with
  | some _ =>
    (tr ++ Ev.mkdir output_dir :: r.executed.map Ev.runCmd, ConvertResult.conversionFailed)
  | none =>
    (tr ++ Ev.mkdir output_dir :: r.executed.map Ev.runCmd,
      ConvertResult.success env.file_id)

/-- The `/convert` handler (src/app.py lines 129-190), as a function from
the request environment to the event trace and the outcome.  The checks
run in source order: ffmpeg availability, missing input, extension
allowlist; then the three base directories are created, the input is
acquired (URL download or upload save), and the batch is planned and
run. -/
def convert (env : Env) : List Ev × ConvertResult :=
  if env.ffmpegAvailable then
    let youtube_url := strip env.youtube_url_field
    let hasUpload : Bool := match env.mediaFile with
      | none => false
      | some f => decide (f ≠ "")
    if hasUpload = false ∧ youtube_url = "" then
      ([Ev.checkFfmpeg], ConvertResult.missingInput)
    else if hasUpload = true ∧ allowed_file (env.mediaFile.getD "") = false then
      ([Ev.checkFfmpeg], ConvertResult.unsupportedType)
    else
      let tr := [Ev.checkFfmpeg, Ev.mkdir UPLOAD_DIR, Ev.mkdir DOWNLOAD_DIR,
        Ev.mkdir OUTPUT_DIR]
      if youtube_url ≠ "" then
        let download_dir := pathJoin DOWNLOAD_DIR env.file_id
        let d := download_from_youtube env.ytdlpAvailable env.downloaderExit
          env.downloadDirContents youtube_url download_dir
        match d.2 with
        | Except.error e => (tr ++ d.1, ConvertResult.acquisitionError e)
        | Except.ok input_path => afterAcquire env (tr ++ d.1) input_path
      else
        let f := env.mediaFile.getD ""
        let extension := lowerStr ((strSplitOn '.' f).getLastD "")
        let input_path := pathJoin UPLOAD_DIR (env.file_id ++ "." ++ extension)
        afterAcquire env (tr ++ [Ev.saveUpload input_path]) input_path
  else ([Ev.checkFfmpeg], ConvertResult.toolUnavailable "ffmpeg")

/-- The output path of a planned invocation: its final argument. -/
def outputPaths (cmds : List (List String)) : List String :=
  cmds.map (fun c => c.getLastD "")

/-- Modelled from the spec: the sanitizing path join of Flask's
`send_from_directory`, which the `/download` route (src/app.py lines
193-196) delegates to and which is library code not in src/.  A requested
filename is safe when it is a single plain path component: no separator,
not empty, not `.` and not `..`. -/
def filenameSafe (filename : String) : Bool :=
  decide (containsChar filename '/' = false ∧ filename ≠ "" ∧
    filename ≠ "." ∧ filename ≠ "..")

/-- Modelled from the spec: the `/download` route (src/app.py lines
193-196), `send_from_directory(OUTPUT_DIR / file_id, filename)`.  The
filesystem is given as the list of (job identifier, file name) pairs of
the regular files inside each job's output directory; the route serves the
file only when the sanitized filename names such a file, and otherwise
responds NotFound (`none`). -/
def downloadRoute (fs : List (String × String)) (file_id filename : String) :
    Option String :=
  if filenameSafe filename ∧ (file_id, filename) ∈ fs then
    some (pathJoin (pathJoin OUTPUT_DIR file_id) filename)
  else none

/-- C1: planning in audio mode (`build_mp3_commands`) produces, for every
non-empty bitrate list B, exactly `len(B)` invocations in the order of B;
the invocation for each bitrate b names the output `{input-stem}_{b}.mp3`
inside the given output directory and carries the drop-video flag `-vn`
and the target audio bitrate b. -/
theorem build_mp3_commands_spec (input_path output_dir : String) (B : List String)
    (hB : B ≠ []) :
    (build_mp3_commands input_path output_dir B).length = B.length ∧
    ∀ k, (hk : k < B.length) →
      (build_mp3_commands input_path output_dir B)[k]? =
        some ["ffmpeg", "-y", "-i", input_path, "-vn", "-b:a", B[k],
          pathJoin output_dir (pathStem input_path ++ "_" ++ B[k] ++ ".mp3")] := by
  refine ⟨by simp [build_mp3_commands], fun k hk => ?_⟩
  simp [build_mp3_commands, List.getElem?_map, List.getElem?_eq_getElem hk]

/-- Witness for C1 at input `song.wav`, output directory `out`, bitrates
`["128k", "320k"]`. -/
theorem build_mp3_commands_spec_witness :
    (build_mp3_commands "song.wav" "out" ["128k", "320k"]).length = 2 ∧
    (build_mp3_commands "song.wav" "out" ["128k", "320k"])[1]? =
      some ["ffmpeg", "-y", "-i", "song.wav", "-vn", "-b:a", "320k",
        "out/song_320k.mp3"] := by
  have h := build_mp3_commands_spec "song.wav" "out" ["128k", "320k"] (by decide)
  exact ⟨h.1, (h.2 1 (by decide)).trans (by decide)⟩

/-- C2: planning in video mode (`build_mp4_commands`) produces, for every
non-empty resolution list R and bitrates V, A, exactly `len(R)`
invocations in the order of R; the invocation for each resolution r names
the output `{input-stem}_{r}.mp4` inside the given output directory,
carries the scale-to-r transform, and carries the same V and A in every
invocation of the batch. -/
theorem build_mp4_commands_spec (input_path output_dir : String) (R : List String)
    (V A : String) (hR : R ≠ []) :
    (build_mp4_commands input_path output_dir R V A).length = R.length ∧
    ∀ k, (hk : k < R.length) →
      (build_mp4_commands input_path output_dir R V A)[k]? =
        some ["ffmpeg", "-y", "-i", input_path, "-vf", "scale=" ++ R[k],
          "-b:v", V, "-b:a", A,
          pathJoin output_dir (pathStem input_path ++ "_" ++ R[k] ++ ".mp4")] := by
  refine ⟨by simp [build_mp4_commands], fun k hk => ?_⟩
  simp [build_mp4_commands, List.getElem?_map, List.getElem?_eq_getElem hk]

/-- Witness for C2 at input `clip.mov`, output directory `out`, resolutions
`["1280:720", "854:480"]`, video bitrate `1500k`, audio bitrate `96k`. -/
theorem build_mp4_commands_spec_witness :
    (build_mp4_commands "clip.mov" "out" ["1280:720", "854:480"] "1500k" "96k").length = 2 ∧
    (build_mp4_commands "clip.mov" "out" ["1280:720", "854:480"] "1500k" "96k")[0]? =
      some ["ffmpeg", "-y", "-i", "clip.mov", "-vf", "scale=1280:720",
        "-b:v", "1500k", "-b:a", "96k", "out/clip_1280:720.mp4"] := by
  have h := build_mp4_commands_spec "clip.mov" "out" ["1280:720", "854:480"]
    "1500k" "96k" (by decide)
  exact ⟨h.1, (h.2 0 (by decide)).trans (by decide)⟩

/-- The batch reports success exactly when every invocation exits zero. -/
theorem run_commands_failure_none_iff (b : List (List String × Int)) :
    (run_commands b).failure = none ↔ ∀ p ∈ b, p.2 = 0 := by
  induction b with
  | nil => simp [run_commands]
  | cons hd tl ih =>
    obtain ⟨c, code⟩ := hd
    by_cases h : code = 0
    · simp [run_commands, h, ih]
    · simp only [run_commands, if_neg h]
      exact ⟨fun hx => absurd hx (by simp),
        fun hall => absurd (hall (c, code) (by simp)) h⟩

/-- Fail-fast: when position k is the first non-zero exit in the batch,
exactly the invocations up to and including k start, and the failure
carries invocation k. -/
theorem run_commands_stops (batch : List (List String × Int)) (k : Nat)
    (hk : k < batch.length) (hfail : (batch.get ⟨k, hk⟩).2 ≠ 0)
    (hpre : ∀ j, (hj : j < batch.length) → j < k → (batch.get ⟨j, hj⟩).2 = 0) :
    (run_commands batch).executed = (batch.take (k + 1)).map Prod.fst ∧
    (run_commands batch).failure = some (batch.get ⟨k, hk⟩) := by
  induction batch generalizing k with
  | nil => exact absurd hk (by simp)
  | cons hd tl ih =>
    obtain ⟨c, code⟩ := hd
    match k with
    | 0 =>
      have hc : ¬ code = 0 := hfail
      simp [run_commands, if_neg hc]
    | k + 1 =>
      have hc : code = 0 := hpre 0 (by simp) (Nat.succ_pos k)
      have hk' : k < tl.length := Nat.lt_of_succ_lt_succ hk
      have h := ih k hk' hfail
        (fun j hj hjk => hpre (j + 1) (Nat.succ_lt_succ hj) (Nat.succ_lt_succ hjk))
      simp [run_commands, if_pos hc, h.1, h.2, List.take_succ_cons]

/-- C3: for every batch of planned invocations in which invocation k
(0-indexed here) is the first to exit non-zero, the executor
(`run_commands`) starts exactly invocations 0..k in order, never starts
the later ones, and reports the failure; and a batch reports success
exactly when every invocation exits zero. -/
theorem run_commands_spec (batch : List (List String × Int)) (k : Nat)
    (hk : k < batch.length) (hfail : (batch.get ⟨k, hk⟩).2 ≠ 0)
    (hpre : ∀ j, (hj : j < batch.length) → j < k → (batch.get ⟨j, hj⟩).2 = 0) :
    (run_commands batch).executed = (batch.take (k + 1)).map Prod.fst ∧
    (run_commands batch).failure = some (batch.get ⟨k, hk⟩) ∧
    ∀ b : List (List String × Int),
      (run_commands b).failure = none ↔ ∀ p ∈ b, p.2 = 0 :=
  ⟨(run_commands_stops batch k hk hfail hpre).1,
    (run_commands_stops batch k hk hfail hpre).2,
    run_commands_failure_none_iff⟩

/-- Witness for C3 on a three-invocation batch whose second invocation
exits 1: the first two invocations run, the third never starts. -/
theorem run_commands_spec_witness :
    (run_commands [(["a"], 0), (["b"], 1), (["c"], 0)]).executed = [["a"], ["b"]] ∧
    (run_commands [(["a"], 0), (["b"], 1), (["c"], 0)]).failure = some (["b"], 1) := by
  have h := run_commands_spec [(["a"], 0), (["b"], 1), (["c"], 0)] 1 (by decide)
    (by decide)
    (fun j hj hjk => by
      have hj0 : j = 0 := by omega
      subst hj0
      rfl)
  exact ⟨h.1.trans (by decide), h.2.1.trans (by decide)⟩

theorem outputPaths_mp3 (i o : String) (B : List String) :
    outputPaths (build_mp3_commands i o B) =
      B.map (fun b => pathJoin o (pathStem i ++ "_" ++ b ++ ".mp3")) := by
  rw [outputPaths, build_mp3_commands, List.map_map]
  rfl

theorem outputPaths_mp4 (i o : String) (R : List String) (v a : String) :
    outputPaths (build_mp4_commands i o R v a) =
      R.map (fun r => pathJoin o (pathStem i ++ "_" ++ r ++ ".mp4")) := by
  rw [outputPaths, build_mp4_commands, List.map_map]
  rfl

theorem string_data_inj {a b : String} (h : a.data = b.data) : a = b := by
  cases a
  cases b
  exact congrArg String.mk h

/-- Two planned output paths with the same directory, stem and suffix are
equal exactly when their variant tokens are. -/
theorem variant_token_inj (o stem suf t1 t2 : String)
    (h : pathJoin o (stem ++ "_" ++ t1 ++ suf) = pathJoin o (stem ++ "_" ++ t2 ++ suf)) :
    t1 = t2 := by
  have hd := congrArg String.data h
  simp only [pathJoin, String.data_append, List.append_assoc] at hd
  exact string_data_inj (List.append_cancel_right (List.append_cancel_left
    (List.append_cancel_left (List.append_cancel_left (List.append_cancel_left hd)))))

/-- C8: for every list of pairwise-distinct variant tokens, the planned
output paths within one job are pairwise distinct, in audio mode and in
video mode alike; conversely, on the duplicate token list
`["128k", "128k"]` the planner produces two invocations with the identical
output path `out/in_128k.mp3`. -/
theorem output_paths_distinct :
    (∀ i o B, List.Pairwise (fun x y => x ≠ y) B →
      List.Pairwise (fun x y => x ≠ y) (outputPaths (build_mp3_commands i o B))) ∧
    (∀ i o R v a, List.Pairwise (fun x y => x ≠ y) R →
      List.Pairwise (fun x y => x ≠ y) (outputPaths (build_mp4_commands i o R v a))) ∧
    outputPaths (build_mp3_commands "in.wav" "out" ["128k", "128k"]) =
      ["out/in_128k.mp3", "out/in_128k.mp3"] := by
  refine ⟨fun i o B hB => ?_, fun i o R v a hR => ?_, by decide⟩
  · rw [outputPaths_mp3]
    exact hB.map _ (fun x y hxy hcontra => hxy (variant_token_inj o _ _ x y hcontra))
  · rw [outputPaths_mp4]
    exact hR.map _ (fun x y hxy hcontra => hxy (variant_token_inj o _ _ x y hcontra))

/-- Witness for C8 on the distinct token list `["128k", "320k"]`. -/
theorem output_paths_distinct_witness :
    List.Pairwise (fun x y => x ≠ y)
      (outputPaths (build_mp3_commands "song.wav" "out" ["128k", "320k"])) :=
  output_paths_distinct.1 "song.wav" "out" ["128k", "320k"] (by decide)

/-- C4, counterexample: in the CLI front end (src/converter.py), a
`--bitrates` value that parses to the empty list (the empty string) does
not fall back to the documented default set: the plan is empty, while the
default list would have produced three invocations. -/
theorem cli_empty_bitrates_no_default :
    main_mp3_plan "song.wav" "output" (some "") = [] ∧
    main_mp3_plan "song.wav" "output" none =
      build_mp3_commands "song.wav" "output" DEFAULT_MP3_BITRATES ∧
    build_mp3_commands "song.wav" "output" DEFAULT_MP3_BITRATES ≠ [] ∧
    main_mp4_plan "song.mp4" "output" (some "") none none = [] := by
  refine ⟨by decide, ?_, by decide, by decide⟩
  rfl

/-- C4, amended: in the web front end a bitrate (audio mode) or resolution
(video mode) parameter that parses to the empty list falls back to the
documented default set, producing the same plan as if the default list had
been supplied; in the CLI front end the defaults apply only when the flag
is absent, and a supplied value that parses to the empty list produces an
empty plan. -/
theorem plan_default_fallback :
    (∀ bf rf v a i o, parse_csv bf = [] →
      planConvert "mp3" bf rf v a i o = build_mp3_commands i o DEFAULT_MP3_BITRATES ∧
      planConvert "mp3" bf rf v a i o = planConvert "mp3" "128k,192k,320k" rf v a i o) ∧
    (∀ m bf rf v a i o, m ≠ "mp3" → parse_csv rf = [] →
      planConvert m bf rf v a i o =
        build_mp4_commands i o DEFAULT_MP4_RESOLUTIONS v a ∧
      planConvert m bf rf v a i o =
        planConvert m bf "1920:1080,1280:720,854:480" v a i o) ∧
    (∀ i o, main_mp3_plan i o none = build_mp3_commands i o DEFAULT_MP3_BITRATES) ∧
    (∀ i o s, parse_csv s = [] → main_mp3_plan i o (some s) = []) ∧
    (∀ i o v a, main_mp4_plan i o none v a =
      build_mp4_commands i o DEFAULT_MP4_RESOLUTIONS (v.getD "2000k") (a.getD "128k")) ∧
    (∀ i o v a s, parse_csv s = [] → main_mp4_plan i o (some s) v a = []) := by
  have hmp3 : parse_csv "128k,192k,320k" = DEFAULT_MP3_BITRATES := by decide
  have hmp4 : parse_csv "1920:1080,1280:720,854:480" = DEFAULT_MP4_RESOLUTIONS := by
    decide
  refine ⟨fun bf rf v a i o h => ?_, fun m bf rf v a i o hm h => ?_,
    fun i o => rfl, fun i o s h => ?_, fun i o v a => rfl, fun i o v a s h => ?_⟩
  · constructor
    · simp [planConvert, h]
    · simp [planConvert, h, hmp3]
  · constructor
    · simp [planConvert, if_neg hm, h]
    · simp [planConvert, if_neg hm, h, hmp4]
  · simp [main_mp3_plan, h, build_mp3_commands]
  · simp [main_mp4_plan, h, build_mp4_commands]

/-- Witness for the amended C4: the empty string parses to the empty list;
the web plan equals the default plan, the CLI plan is empty. -/
theorem plan_default_fallback_witness :
    planConvert "mp3" "" "" "2000k" "128k" "song.wav" "out" =
      build_mp3_commands "song.wav" "out" DEFAULT_MP3_BITRATES ∧
    main_mp3_plan "song.wav" "out" (some "") = [] := by
  have h := plan_default_fallback
  exact ⟨(h.1 "" "" "2000k" "128k" "song.wav" "out" (by decide)).1,
    h.2.2.2.1 "song.wav" "out" "" (by decide)⟩

/-- C5, counterexample: with ffmpeg present but yt-dlp absent and a URL
supplied, the handler creates the three base directories before the yt-dlp
availability check, so the check does not precede every filesystem
mutation; the trace up to the yt-dlp check already contains a mkdir. -/
theorem ytdlp_check_after_mkdir :
    convert ⟨true, false, none, "http://example", none, none, none, none, none,
      "job", 0, [], fun _ => 0⟩ =
    ([Ev.checkFfmpeg, Ev.mkdir "uploads", Ev.mkdir "downloads", Ev.mkdir "output",
      Ev.checkYtdlp],
     ConvertResult.acquisitionError (AcqErr.toolUnavailable "yt-dlp")) ∧
    ((convert ⟨true, false, none, "http://example", none, none, none, none, none,
      "job", 0, [], fun _ => 0⟩).1.takeWhile (fun e => e ≠ Ev.checkYtdlp)).any
      (fun e => match e with | Ev.mkdir _ => true | _ => false) = true := by
  constructor
  · decide
  · decide

/-- C5, amended: the ffmpeg availability check precedes every filesystem
mutation — an absent transcoder rejects the request with only the check in
the trace — but when a URL is supplied and the downloader is absent, the
three base directories are created before the yt-dlp availability check;
the request is then rejected with the tool-unavailable error and no
job-scoped directory or file is created. -/
theorem tool_check_order :
    (∀ env : Env, env.ffmpegAvailable = false →
      convert env = ([Ev.checkFfmpeg], ConvertResult.toolUnavailable "ffmpeg")) ∧
    (∀ env : Env, env.ffmpegAvailable = true → env.ytdlpAvailable = false →
      strip env.youtube_url_field ≠ "" →
      (∀ f, env.mediaFile = some f → f ≠ "" → allowed_file f = true) →
      convert env =
        ([Ev.checkFfmpeg, Ev.mkdir UPLOAD_DIR, Ev.mkdir DOWNLOAD_DIR,
          Ev.mkdir OUTPUT_DIR, Ev.checkYtdlp],
         ConvertResult.acquisitionError (AcqErr.toolUnavailable "yt-dlp"))) := by
  constructor
  · intro env hff
    simp [convert, hff]
  · intro env hff hyt hurl hall
    cases henv : env.mediaFile with
    | none => simp [convert, download_from_youtube, hff, hyt, hurl, henv]
    | some f =>
      by_cases hfe : f = ""
      · subst hfe
        simp [convert, download_from_youtube, hff, hyt, hurl, henv]
      · have ha := hall f henv hfe
        simp [convert, download_from_youtube, hff, hyt, hurl, henv, ha, hfe]

/-- Witness for the amended C5 at two concrete requests: one with ffmpeg
absent, one with a URL and yt-dlp absent. -/
theorem tool_check_order_witness :
    convert ⟨false, true, none, "", none, none, none, none, none,
      "j", 0, [], fun _ => 0⟩ =
      ([Ev.checkFfmpeg], ConvertResult.toolUnavailable "ffmpeg") ∧
    convert ⟨true, false, none, "http://e", none, none, none, none, none,
      "j", 0, [], fun _ => 0⟩ =
      ([Ev.checkFfmpeg, Ev.mkdir UPLOAD_DIR, Ev.mkdir DOWNLOAD_DIR,
        Ev.mkdir OUTPUT_DIR, Ev.checkYtdlp],
       ConvertResult.acquisitionError (AcqErr.toolUnavailable "yt-dlp")) := by
  constructor
  · exact tool_check_order.1 _ rfl
  · exact tool_check_order.2 _ rfl rfl (by decide) (fun f hf hne => Option.noConfusion hf)

theorem mem_insertSorted {x y : String} {l : List String} :
    y ∈ insertSorted x l ↔ y = x ∨ y ∈ l := by
  induction l with
  | nil => simp [insertSorted]
  | cons z zs ih =>
    by_cases h : lexLeChars x.data z.data
    · simp [insertSorted, h]
    · simp only [insertSorted, if_neg h, List.mem_cons, ih]
      tauto

theorem mem_sortStrings {y : String} {l : List String} :
    y ∈ sortStrings l ↔ y ∈ l := by
  induction l with
  | nil => simp [sortStrings]
  | cons z zs ih => simp [sortStrings, mem_insertSorted, ih]

theorem insertSorted_ne_nil (x : String) (l : List String) :
    insertSorted x l ≠ [] := by
  cases l with
  | nil => simp [insertSorted]
  | cons z zs =>
    by_cases h : lexLeChars x.data z.data <;> simp [insertSorted, h]

theorem sortStrings_eq_nil_iff {l : List String} : sortStrings l = [] ↔ l = [] := by
  cases l with
  | nil => simp [sortStrings]
  | cons z zs => simp [sortStrings, insertSorted_ne_nil]

theorem mem_globSource {y : String} {contents : List String} :
    y ∈ globSource contents ↔ y ∈ contents ∧ strStartsWith y "source." = true := by
  rw [globSource, mem_sortStrings, List.mem_filter]

theorem globSource_eq_nil_iff {contents : List String} :
    globSource contents = [] ↔
      contents.filter (fun f => strStartsWith f "source.") = [] := by
  rw [globSource, sortStrings_eq_nil_iff]

/-- C7: with yt-dlp present, acquisition fails when the downloader exits
non-zero; it also fails when the downloader exits zero but no file
matching the fixed base name `source.` is found by glob; it succeeds
exactly when the downloader exits zero and at least one matching file
exists, and then the returned path points at such a file inside the
job-scoped directory. -/
theorem download_from_youtube_spec (code : Int) (contents : List String)
    (url dir : String) :
    (code ≠ 0 → (download_from_youtube true code contents url dir).2 =
      Except.error (AcqErr.processFailed code)) ∧
    (code = 0 → contents.filter (fun f => strStartsWith f "source.") = [] →
      (download_from_youtube true code contents url dir).2 =
        Except.error AcqErr.noFileProduced) ∧
    ((∃ p, (download_from_youtube true code contents url dir).2 = Except.ok p) ↔
      code = 0 ∧ ∃ f, f ∈ contents ∧ strStartsWith f "source." = true) ∧
    (∀ p, (download_from_youtube true code contents url dir).2 = Except.ok p →
      ∃ f, f ∈ contents ∧ strStartsWith f "source." = true ∧ p = pathJoin dir f) := by
  have hfwd : ∀ p, (download_from_youtube true code contents url dir).2 = Except.ok p →
      code = 0 ∧ ∃ f, f ∈ contents ∧ strStartsWith f "source." = true ∧
        p = pathJoin dir f := by
    intro p hp
    by_cases hc : code = 0
    · subst hc
      rcases hs : globSource contents with _ | ⟨f, fs⟩
      · rw [download_from_youtube] at hp
        simp [hs] at hp
      · have hf : f ∈ globSource contents := by
          rw [hs]
          exact List.mem_cons_self f fs
        rw [mem_globSource] at hf
        rw [download_from_youtube] at hp
        simp [hs] at hp
        exact ⟨rfl, f, hf.1, hf.2, hp.symm⟩
    · rw [download_from_youtube] at hp
      simp [hc] at hp
  refine ⟨fun hc => by simp [download_from_youtube, hc], fun hc hf => ?_, ?_, ?_⟩
  · subst hc
    have : globSource contents = [] := globSource_eq_nil_iff.mpr hf
    simp [download_from_youtube, this]
  · constructor
    · rintro ⟨p, hp⟩
      obtain ⟨hc, f, hfm, hfp, _⟩ := hfwd p hp
      exact ⟨hc, f, hfm, hfp⟩
    · rintro ⟨hc, f, hfm, hfp⟩
      subst hc
      have hne : globSource contents ≠ [] := by
        rw [Ne, globSource_eq_nil_iff]
        intro h0
        have : f ∈ contents.filter (fun g => strStartsWith g "source.") :=
          List.mem_filter.mpr ⟨hfm, hfp⟩
        rw [h0] at this
        exact absurd this (List.not_mem_nil f)
      obtain ⟨g, gs, hgs⟩ := List.exists_cons_of_ne_nil hne
      exact ⟨pathJoin dir g, by simp [download_from_youtube, hgs]⟩
  · intro p hp
    exact (hfwd p hp).2

/-- Witness for C7: a zero-exit download that produced `source.webm` (with
an unrelated file beside it) succeeds and returns the job-scoped path; a
non-zero exit fails. -/
theorem download_from_youtube_spec_witness :
    (download_from_youtube true 2 ["source.webm"] "http://e" "downloads/j").2 =
      Except.error (AcqErr.processFailed 2) ∧
    (∃ f, f ∈ (["other.txt", "source.webm"] : List String) ∧
      strStartsWith f "source." = true ∧
      ("downloads/j/source.webm" : String) = pathJoin "downloads/j" f) := by
  constructor
  · exact (download_from_youtube_spec 2 ["source.webm"] "http://e" "downloads/j").1
      (by decide)
  · exact (download_from_youtube_spec 0 ["other.txt", "source.webm"] "http://e"
      "downloads/j").2.2.2 "downloads/j/source.webm" rfl

/-- C6: retrieval either serves a regular file strictly inside the job's
own output directory or yields NotFound; a filename containing a traversal
sequence (a separator or `..`) always yields NotFound, as does a filename
not among the job's output files — in particular any filename under a
nonexistent job identifier. -/
theorem download_route_spec (fs : List (String × String)) (file_id filename : String) :
    (downloadRoute fs file_id filename = none ∨
      ∃ name, filenameSafe name = true ∧ (file_id, name) ∈ fs ∧
        downloadRoute fs file_id filename =
          some (pathJoin (pathJoin OUTPUT_DIR file_id) name)) ∧
    (containsChar filename '/' = true ∨ filename = ".." →
      downloadRoute fs file_id filename = none) ∧
    ((file_id, filename) ∉ fs → downloadRoute fs file_id filename = none) := by
  refine ⟨?_, fun htrav => ?_, fun habs => ?_⟩
  · by_cases h : filenameSafe filename = true ∧ (file_id, filename) ∈ fs
    · exact Or.inr ⟨filename, h.1, h.2, by simp [downloadRoute, h.1, h.2]⟩
    · left
      rw [downloadRoute, if_neg]
      intro hc
      exact h ⟨hc.1, hc.2⟩
  · rw [downloadRoute, if_neg]
    intro hc
    have hsafe := of_decide_eq_true hc.1
    rcases htrav with h1 | h1
    · rw [hsafe.1] at h1
      exact Bool.false_ne_true h1
    · exact hsafe.2.2.2 h1
  · rw [downloadRoute, if_neg]
    intro hc
    exact habs hc.2

/-- Witness for C6 on a two-job filesystem: the traversal name `..` and a
filename of another job yield NotFound; a present filename is served from
inside the job's own directory. -/
theorem download_route_spec_witness :
    downloadRoute [("job1", "song_128k.mp3"), ("job2", "clip.mp4")] "job1" ".." =
      none ∧
    downloadRoute [("job1", "song_128k.mp3"), ("job2", "clip.mp4")] "job1" "clip.mp4" =
      none ∧
    downloadRoute [("job1", "song_128k.mp3"), ("job2", "clip.mp4")] "job1"
      "song_128k.mp3" = some "output/job1/song_128k.mp3" := by
  refine ⟨(download_route_spec _ "job1" "..").2.1 (Or.inr rfl),
    (download_route_spec _ "job1" "clip.mp4").2.2 (by decide), ?_⟩
  have h := (download_route_spec [("job1", "song_128k.mp3"), ("job2", "clip.mp4")]
    "job1" "song_128k.mp3").1
  rcases h with h | h
  · exact absurd h (by decide)
  · decide

theorem saveUpload_not_mem_download (a : Bool) (c : Int) (l : List String)
    (u d p : String) :
    Ev.saveUpload p ∉ (download_from_youtube a c l u d).1 := by
  cases a with
  | false => simp [download_from_youtube]
  | true =>
    by_cases hc : c = 0
    · rcases hs : globSource l with _ | ⟨f, fs⟩ <;>
        simp [download_from_youtube, hc, hs]
    · simp [download_from_youtube, hc]

theorem saveUpload_not_mem_afterAcquire (env : Env) (tr : List Ev) (ip p : String)
    (h : Ev.saveUpload p ∉ tr) :
    Ev.saveUpload p ∉ (afterAcquire env tr ip).1 := by
  unfold afterAcquire
  dsimp only
  split <;> simp [List.mem_append, h]

/-- C9: when a request supplies both an uploaded file with a non-empty
filename and a URL, the uploaded filename is still checked against the
extension allowlist — a disallowed extension rejects the request with the
unsupported-type error — and when it passes, acquisition proceeds via the
URL alone: the uploaded blob is never saved. -/
theorem upload_with_url_spec (env : Env) (f : String)
    (hf : env.mediaFile = some f) (hne : f ≠ "")
    (hurl : strip env.youtube_url_field ≠ "")
    (hffmpeg : env.ffmpegAvailable = true) :
    (allowed_file f = false →
      convert env = ([Ev.checkFfmpeg], ConvertResult.unsupportedType)) ∧
    (allowed_file f = true → ∀ p, Ev.saveUpload p ∉ (convert env).1) := by
  constructor
  · intro hbad
    simp [convert, hffmpeg, hf, hne, hurl, hbad]
  · intro hgood p
    have hdl := saveUpload_not_mem_download env.ytdlpAvailable env.downloaderExit
      env.downloadDirContents (strip env.youtube_url_field)
      (pathJoin DOWNLOAD_DIR env.file_id) p
    rcases hd : download_from_youtube env.ytdlpAvailable env.downloaderExit
        env.downloadDirContents (strip env.youtube_url_field)
        (pathJoin DOWNLOAD_DIR env.file_id) with ⟨dtr, e | ip⟩
    · rw [hd] at hdl
      simp [convert, hffmpeg, hf, hne, hurl, hgood, hd]
      exact hdl
    · rw [hd] at hdl
      have hnotin : Ev.saveUpload p ∉
          ([Ev.checkFfmpeg, Ev.mkdir UPLOAD_DIR, Ev.mkdir DOWNLOAD_DIR,
            Ev.mkdir OUTPUT_DIR] ++ dtr) := by
        simp [List.mem_append]
        exact hdl
      have := saveUpload_not_mem_afterAcquire env
        ([Ev.checkFfmpeg, Ev.mkdir UPLOAD_DIR, Ev.mkdir DOWNLOAD_DIR,
          Ev.mkdir OUTPUT_DIR] ++ dtr) ip p hnotin
      simp [convert, hffmpeg, hf, hne, hurl, hgood, hd]
      simpa [List.mem_append] using this

/-- Witness for C9 at a request carrying both `track.exe` / `track.wav`
and a URL: the bad extension is rejected; the good one downloads and
never saves the upload. -/
theorem upload_with_url_spec_witness :
    convert ⟨true, true, some "track.exe", "http://e", none, none, none, none, none,
      "j", 0, [], fun _ => 0⟩ = ([Ev.checkFfmpeg], ConvertResult.unsupportedType) ∧
    Ev.saveUpload "uploads/j.wav" ∉
      (convert ⟨true, true, some "track.wav", "http://e", none, none, none, none, none,
        "j", 0, [], fun _ => 0⟩).1 := by
  constructor
  · exact (upload_with_url_spec _ "track.exe" rfl (by decide) (by decide) rfl).1
      (by decide)
  · exact (upload_with_url_spec _ "track.wav" rfl (by decide) (by decide) rfl).2
      (by decide) "uploads/j.wav"

theorem planConvert_mode_ne (m : String) (hm : m ≠ "mp3") :
    planConvert m = planConvert "mp4" := by
  funext bf rf v a i o
  rw [planConvert, planConvert, if_neg hm, if_neg (by decide : ¬ ("mp4" = "mp3"))]

/-- C10: the mode selector defaults to `"mp3"` when absent, and every
value other than `"mp3"` is treated as video mode — the whole request
behaves exactly as with mode `"mp4"`, the planner builds MP4 variant
invocations, and no mode value is rejected as invalid. -/
theorem mode_selector_spec (env : Env) (m : String) (hm : m ≠ "mp3") :
    convert { env with modeField := some m } =
      convert { env with modeField := some "mp4" } ∧
    convert { env with modeField := none } =
      convert { env with modeField := some "mp3" } ∧
    (∀ bf rf v a i o, planConvert m bf rf v a i o =
      build_mp4_commands i o
        (if parse_csv rf = [] then DEFAULT_MP4_RESOLUTIONS else parse_csv rf) v a) := by
  refine ⟨?_, ?_, fun bf rf v a i o => ?_⟩
  · have hp := planConvert_mode_ne m hm
    simp only [convert, afterAcquire, Option.getD_some, hp]
  · simp only [convert, afterAcquire, Option.getD_some, Option.getD_none]
  · rw [planConvert, if_neg hm]

/-- Witness for C10 at the unknown mode value `avi`. -/
theorem mode_selector_spec_witness :
    planConvert "avi" "" "1280:720" "2000k" "128k" "in.mp4" "out" =
      build_mp4_commands "in.mp4" "out"
        (if parse_csv "1280:720" = [] then DEFAULT_MP4_RESOLUTIONS
         else parse_csv "1280:720") "2000k" "128k" :=
  (mode_selector_spec ⟨true, true, none, "", none, none, none, none, none,
    "j", 0, [], fun _ => 0⟩ "avi" (by decide)).2.2 "" "1280:720" "2000k" "128k"
    "in.mp4" "out"

/-- End-to-end sanity check: an uploaded `song.wav` in mp3 mode with one
bitrate saves the upload, plans one invocation, and succeeds. -/
theorem convert_upload_end_to_end :
    convert ⟨true, true, some "song.wav", "", none, some "128k", none, none, none,
      "job1", 0, [], fun _ => 0⟩ =
    ([Ev.checkFfmpeg, Ev.mkdir "uploads", Ev.mkdir "downloads", Ev.mkdir "output",
      Ev.saveUpload "uploads/job1.wav", Ev.mkdir "output/job1",
      Ev.runCmd ["ffmpeg", "-y", "-i", "uploads/job1.wav", "-vn", "-b:a", "128k",
        "output/job1/job1_128k.mp3"]],
     ConvertResult.success "job1") := by decide

/-- End-to-end sanity check: a URL request with yt-dlp absent stops at the
yt-dlp availability check, after the base directories were made. -/
theorem convert_no_ytdlp_end_to_end :
    convert ⟨true, false, none, " http://y ", none, none, none, none, none,
      "job2", 0, [], fun _ => 0⟩ =
    ([Ev.checkFfmpeg, Ev.mkdir "uploads", Ev.mkdir "downloads", Ev.mkdir "output",
      Ev.checkYtdlp],
     ConvertResult.acquisitionError (AcqErr.toolUnavailable "yt-dlp")) := by decide

/-- End-to-end sanity check: a URL request in default mp3 mode whose first
transcode fails runs only that first invocation and reports failure. -/
theorem convert_failfast_end_to_end :
    convert ⟨true, true, none, "http://y", none, none, none, none, none,
      "job3", 0, ["source.webm", "other.txt"], fun _ => 1⟩ =
    ([Ev.checkFfmpeg, Ev.mkdir "uploads", Ev.mkdir "downloads", Ev.mkdir "output",
      Ev.checkYtdlp, Ev.mkdir "downloads/job3", Ev.runDownloader "http://y",
      Ev.mkdir "output/job3",
      Ev.runCmd ["ffmpeg", "-y", "-i", "downloads/job3/source.webm", "-vn", "-b:a", "128k",
        "output/job3/source_128k.mp3"]],
     ConvertResult.conversionFailed) := by decide

end MediaConv
